import Mathlib

/-
  Shallow embedding of the easymud ECS core (src/easymud/mud.py).

  Python dicts are modelled as association lists with Python-dict update
  semantics (update-in-place for an existing key, append otherwise); Python
  lists are Lean lists; exceptions are modelled with Except; the handlers
  stored in EventDispatcher listener lists are defunctionalized into the
  Handler inductive below (each constructor stands for one concrete bound
  method that the source ever registers, with the session identity as the
  datum that Python method-equality compares).
-/

namespace EasyMud

instance {ε α : Type} [DecidableEq ε] [DecidableEq α] : DecidableEq (Except ε α)
  | .error e1, .error e2 =>
    if h : e1 = e2 then .isTrue (by rw [h]) else .isFalse (fun hc => h (by injection hc))
  | .error _, .ok _ => .isFalse (fun hc => Except.noConfusion hc)
  | .ok _, .error _ => .isFalse (fun hc => Except.noConfusion hc)
  | .ok a1, .ok a2 =>
    if h : a1 = a2 then .isTrue (by rw [h]) else .isFalse (fun hc => h (by injection hc))

/-- Python exception kinds raised by the modelled code paths. -/
inductive PyError where
  | valueError
  | keyError
  | typeError
  | attributeError
  | worldValidationError
  | recursionError
deriving DecidableEq

/-- `d.get(k)` on an association list modelling a Python dict. -/
def alGet? {V : Type} : List (String × V) → String → Option V
  | [], _ => Option.none
  | p :: rest, k => if p.1 = k then some p.2 else alGet? rest k

/-- `d[k] = v` on an association list: replace in place if the key is
present (Python dicts keep insertion order), append otherwise. -/
def alInsert {V : Type} : List (String × V) → String → V → List (String × V)
  | [], k, v => [(k, v)]
  | p :: rest, k, v => if p.1 = k then (k, v) :: rest else p :: alInsert rest k v

/-- `del d[k]`: a Python dict holds each key at most once, so deleting the
key is removing every binding of it. -/
def alErase {V : Type} (l : List (String × V)) (k : String) : List (String × V) :=
  l.filter (fun p => decide (p.1 ≠ k))

/-- The bound methods that mud.py ever registers as event handlers.
`player_moved` is `PlayerComponentSystem.player_moved` (one system instance
per world, hence one identity); the display handlers are bound methods of a
session, and Python bound-method equality compares the session object, which
the `sid` argument stands for. -/
inductive Handler where
  | player_moved
  | display_entity_arrived (sid : Nat)
  | display_entity_left (sid : Nat)
deriving DecidableEq

/-- The listener table of one EventDispatcher: event name to handler list. -/
abbrev Listeners := List (String × List Handler)

/-- `listeners.get(event, [])`. -/
def alBucket (L : Listeners) (event : String) : List Handler :=
  (alGet? L event).getD []

/-- EventDispatcher.add_handler: append the handler unless already present
(idempotent per handler identity). -/
def EventDispatcher.add_handler (L : Listeners) (event : String) (h : Handler) : Listeners :=
  let event_listeners := alBucket L event
  if h ∈ event_listeners then L
  else alInsert L event (event_listeners ++ [h])

/-- EventDispatcher.remove_handler: fetch the bucket defaulting to empty; if
it is non-empty, `list.remove(handler)` removes the first occurrence and
raises ValueError when the handler is absent. -/
def EventDispatcher.remove_handler (L : Listeners) (event : String) (h : Handler) :
    Except PyError Listeners :=
  let event_listeners := alBucket L event
  if event_listeners.isEmpty then .ok L
  else if h ∈ event_listeners then .ok (alInsert L event (event_listeners.erase h))
  else .error .valueError

/-- One room record of a world definition (title, description, exits and
objects keys are all optional; objects are irrelevant to the claims and not
modelled further). -/
structure RoomDef where
  title : Option String
  description : Option String
  exits : List (String × String)
deriving DecidableEq

/-- A world definition: room id to room record. -/
abbrev WorldDef := List (String × RoomDef)

/-- The immutable data of a Room (its dispatcher state lives in MState). -/
structure Room where
  id : String
  title : String
  description : String
  exit_dict : List (String × String)
deriving DecidableEq

/-- The immutable room topology a World owns after construction. -/
structure World where
  rooms : List (String × Room)
deriving DecidableEq

/-- World.validate: every exit target must be a declared room id, else
WorldValidationError is raised. -/
def World.validate (d : WorldDef) : Except PyError Unit :=
  if d.all (fun p => p.2.exits.all (fun ex => (alGet? d ex.2).isSome)) then .ok ()
  else .error .worldValidationError

/-- The description preprocessing in World.build composed with the
`.replace("\t", "")` done by Room.__init__. -/
def buildDescription (s : String) : String :=
  (String.intercalate "\n" ((s.splitOn "\n").map String.trim)).replace "\t" ""

/-- The Room constructed by World.build for one definition entry,
defaulting the title. -/
def roomOf (id : String) (rd : RoomDef) : Room :=
  { id := id
    title := rd.title.getD "An Unnamed Room"
    description := buildDescription (rd.description.getD "")
    exit_dict := rd.exits }

/-- World.build: one Room per definition entry. -/
def World.build (d : WorldDef) : List (String × Room) :=
  d.map (fun p => (p.1, roomOf p.1 p.2))

/-- World.__init__: validate, then build.  A raise during __init__ means the
constructor call produces no object, which Except.error models. -/
def World.init (d : WorldDef) : Except PyError World :=
  match World.validate d with
  | .error e => .error e
  | .ok _ => .ok { rooms := World.build d }

/-- World.get_room: `self.rooms.get(id)`. -/
def World.get_room (w : World) (id : String) : Option Room :=
  alGet? w.rooms id

/-- Room.get_exit: `world.get_room(self.exit_dict.get(direction))`.  When the
direction has no entry, Python looks up key None in the rooms dict, whose
keys are all strings, so the result is None. -/
def Room.get_exit (w : World) (r : Room) (direction : String) : Option Room :=
  match alGet? r.exit_dict direction with
  | Option.none => Option.none
  | some target => World.get_room w target

/-- Keyword payload of one dispatch call, per event shape used in mud.py
(rooms are passed as objects; their id is their identity here). -/
inductive Payload where
  | arrived (entityId : String)
  | moved (fromRoomId toRoomId : String)
  | left (entityId : String) (direction : String)
deriving DecidableEq

/-- The owning context of a dispatcher. -/
inductive Owner where
  | room (id : String)
  | entity (id : String)
deriving DecidableEq

/-- Ghost trace entries: the location-map write and each dispatch call, in
execution order. -/
inductive Eff where
  | set_room (entityId roomId : String)
  | dispatched (owner : Owner) (event : String) (p : Payload)
deriving DecidableEq

/-- Session display side effects (the session is an injected collaborator;
these record which session displayed what, in order). -/
inductive DisplayCall where
  | room (sid : Nat) (roomId : String)
  | entity_arrived (sid : Nat) (roomId : String) (entityId : String)
  | entity_left (sid : Nat) (roomId : String) (entityId : String) (direction : String)
deriving DecidableEq

/-- The mutable state the movement/event claims touch: the World's
entity_room_map (entity id to room id), the per-room and per-entity
dispatcher listener tables, the session bound to each player entity
(`entity.session`), the session display log, and the ghost trace. -/
structure MState where
  entity_room_map : List (String × String)
  roomListeners : List (String × Listeners)
  entityListeners : List (String × Listeners)
  sessionOf : List (String × Nat)
  output : List DisplayCall
  trace : List Eff
deriving DecidableEq

/-- Listener table of a dispatcher owner, defaulting to empty (each Room and
Entity constructs its dispatcher with an empty table). -/
def lsOf (m : List (String × Listeners)) (k : String) : Listeners :=
  (alGet? m k).getD []

/-- Bucket of one room's dispatcher for one event. -/
def roomBucket (rooms : List (String × Listeners)) (rid event : String) : List Handler :=
  alBucket (lsOf rooms rid) event

/-- Run one handler.  The handlers only ever read the session table and
mutate room listener tables and emit display calls, so the result is the new
room-listener table plus the display calls appended.  A raise inside a
handler is swallowed at the dispatch boundary, keeping the mutations made
before the raise (PlayerComponentSystem.player_moved aborts at a failing
`remove_handler`; a payload that lacks the expected keyword raises KeyError
before any mutation). -/
def applyListener (sessions : List (String × Nat)) (rooms : List (String × Listeners))
    (owner : Owner) (p : Payload) (h : Handler) :
    List (String × Listeners) × List DisplayCall :=
  match h with
  | .display_entity_arrived sid =>
    match owner, p with
    | .room rid, .arrived eid => (rooms, [.entity_arrived sid rid eid])
    | _, _ => (rooms, [])
  | .display_entity_left sid =>
    match owner, p with
    | .room rid, .left eid direction => (rooms, [.entity_left sid rid eid direction])
    | _, _ => (rooms, [])
  | .player_moved =>
    match owner, p with
    | .entity eid, .moved fromId toId =>
      match alGet? sessions eid with
      | Option.none => (rooms, [])
      | some sid =>
        match EventDispatcher.remove_handler (lsOf rooms fromId) "arrived"
            (.display_entity_arrived sid) with
        | .error _ => (rooms, [])
        | .ok L1 =>
          let rooms1 := alInsert rooms fromId L1
          match EventDispatcher.remove_handler (lsOf rooms1 fromId) "left"
              (.display_entity_left sid) with
          | .error _ => (rooms1, [])
          | .ok L2 =>
            let rooms2 := alInsert rooms1 fromId L2
            let rooms3 := alInsert rooms2 toId
              (EventDispatcher.add_handler (lsOf rooms2 toId) "arrived"
                (.display_entity_arrived sid))
            let rooms4 := alInsert rooms3 toId
              (EventDispatcher.add_handler (lsOf rooms3 toId) "left"
                (.display_entity_left sid))
            (rooms4, [.room sid toId])
    | _, _ => (rooms, [])

/-- One step of the dispatch loop over a listener list. -/
def dispatchStep (owner : Owner) (p : Payload) (st : MState) (h : Handler) : MState :=
  let res := applyListener st.sessionOf st.roomListeners owner p h
  { st with roomListeners := res.1, output := st.output ++ res.2 }

/-- The listener table the dispatch reads for its owner. -/
def ownerLs (s : MState) : Owner → Listeners
  | .room rid => lsOf s.roomListeners rid
  | .entity eid => lsOf s.entityListeners eid

/-- EventDispatcher.dispatch: invoke every currently registered handler for
the event in registration order, isolating handler failures. -/
def dispatch (s : MState) (owner : Owner) (event : String) (p : Payload) : MState :=
  let ls := alBucket (ownerLs s owner) event
  ls.foldl (dispatchStep owner p)
    { s with trace := s.trace ++ [Eff.dispatched owner event p] }

/-- Entity.move: resolve the current room through the World's location map
(`self.room`, raising AttributeError on a missing room), resolve the exit;
with an exit, write the location map, then dispatch "arrived" on the
destination, "moved" on the entity, "left" on the origin, and return
(True, None); without one, return (False, "You cannot go that way.") with
no state change. -/
def Entity.move (w : World) (s : MState) (eid direction : String) :
    MState × Except PyError (Bool × Option String) :=
  match (alGet? s.entity_room_map eid).bind (World.get_room w) with
  | Option.none => (s, .error .attributeError)
  | some prev_room =>
    match Room.get_exit w prev_room direction with
    | Option.none => (s, .ok (false, some "You cannot go that way."))
    | some next_room =>
      let s1 : MState :=
        { s with
          entity_room_map := alInsert s.entity_room_map eid next_room.id
          trace := s.trace ++ [Eff.set_room eid next_room.id] }
      let s2 := dispatch s1 (.room next_room.id) "arrived" (.arrived eid)
      let s3 := dispatch s2 (.entity eid) "moved" (.moved prev_room.id next_room.id)
      let s4 := dispatch s3 (.room prev_room.id) "left" (.left eid direction)
      (s4, .ok (true, Option.none))

/-- PlayerComponentSystem.on_register: subscribe player_moved to the
entity's "moved" event, record `entity.session` from the freshly stored
player record (whose session attribute `sid` is passed in), then subscribe
the session display handlers on the entity's current room; an entity with no
current room raises AttributeError after the first two steps. -/
def player_on_register (s : MState) (eid : String) (sid : Nat) :
    MState × Except PyError Unit :=
  let el1 := alInsert s.entityListeners eid
    (EventDispatcher.add_handler (lsOf s.entityListeners eid) "moved" .player_moved)
  let s1 : MState := { s with entityListeners := el1 }
  let s2 : MState := { s1 with sessionOf := alInsert s1.sessionOf eid sid }
  match alGet? s2.entity_room_map eid with
  | Option.none => (s2, .error .attributeError)
  | some rid =>
    let rl3 := alInsert s2.roomListeners rid
      (EventDispatcher.add_handler (lsOf s2.roomListeners rid) "arrived"
        (.display_entity_arrived sid))
    let s3 : MState := { s2 with roomListeners := rl3 }
    let rl4 := alInsert s3.roomListeners rid
      (EventDispatcher.add_handler (lsOf s3.roomListeners rid) "left"
        (.display_entity_left sid))
    let s4 : MState := { s3 with roomListeners := rl4 }
    (s4, .ok ())

/-- Attribute values stored in component records (Python ints, bools,
strings, the injected session object, and None). -/
inductive Value where
  | int (i : Int)
  | bool (b : Bool)
  | str (s : String)
  | sid (n : Nat)
  | vnone
deriving DecidableEq

/-- A component attribute record: attribute name to value. -/
abbrev Record := List (String × Value)

/-- The component_systems registry, in class-definition order
(player, mobile, health, armor). -/
def component_systems : List String := ["player", "mobile", "health", "armor"]

/-- The static `attributes` declaration of each system, as recordtype sees
it: a pair is a field with a default, a bare name (armor's 'ac') is a field
with no default.  The separate `defaults` dict on ArmorComponentSystem is
never read by ComponentSystem.__init__, so it does not appear here. -/
def attributesOf (kind : String) : List (String × Option Value) :=
  if kind = "player" then [("session", some Value.vnone)]
  else if kind = "mobile" then []
  else if kind = "health" then
    [("hp", some (Value.int 100)), ("hp_max", some (Value.int 100)),
     ("hp_regen", some (Value.int 10)), ("is_dead", some (Value.bool false))]
  else if kind = "armor" then [("ac", Option.none)]
  else []

/-- The static `requires` list of each system. -/
def requiresOf (kind : String) : List String :=
  if kind = "player" then ["health"] else []

/-- `self.record(**kwargs)`: a recordtype constructor call.  An unknown
keyword raises TypeError; a field without a default and without a keyword
raises TypeError; otherwise the record overlays the keywords on the
declared defaults, in declaration order. -/
def buildRecord (kind : String) (kwargs : Record) : Except PyError Record :=
  if kwargs.all (fun kv => (attributesOf kind).any (fun a => a.1 = kv.1)) then
    (attributesOf kind).mapM (fun a =>
      match alGet? kwargs a.1 with
      | some v => .ok (a.1, v)
      | Option.none =>
        match a.2 with
        | some v => .ok (a.1, v)
        | Option.none => .error PyError.typeError)
  else .error .typeError

/-- The component-bookkeeping state for one entity under consideration:
its `components` list, and every system's private store (entity id to
record), keyed by component kind. -/
structure CompState where
  components : List String
  stores : List (String × List (String × Record))
deriving DecidableEq

/-- World.initialize_systems: one system per registered kind, each with an
empty store. -/
def initStores : List (String × List (String × Record)) :=
  component_systems.map (fun k => (k, []))

/-- The component state of a freshly created entity. -/
def initCompState : CompState := { components := [], stores := initStores }

/-- Record lookup in a kind's store. -/
def storeGet (s : CompState) (kind eid : String) : Option Record :=
  (alGet? s.stores kind).bind (fun st => alGet? st eid)

/-- Store a record under a kind for an entity. -/
def storePut (s : CompState) (kind eid : String) (r : Record) : CompState :=
  { s with stores := alInsert s.stores kind (alInsert ((alGet? s.stores kind).getD []) eid r) }

/-- `del self.entities[entity.id]` in a kind's store. -/
def storeDel (s : CompState) (kind eid : String) : CompState :=
  { s with stores := alInsert s.stores kind (alErase ((alGet? s.stores kind).getD []) eid) }

/-
  Entity.add_component and ComponentSystem.register are mutually recursive
  through the `requires` cascade.  The `fuel` argument models the Python
  call stack: each nested add_component call consumes one unit, and fuel
  exhaustion stands for RecursionError (unreachable for the acyclic concrete
  requires table whenever enough fuel is supplied).  To keep the recursion
  structural on fuel, the register helpers take the one-level-deeper
  add_component as the `addc` argument.
-/

/-- The `for required_component in requires: entity.add_component(...)`
loop inside ComponentSystem.register; `addc` is Entity.add_component. -/
def registerRequiresAux
    (addc : CompState → String → String → Record → CompState × Except PyError Unit) :
    CompState → String → List String → CompState × Except PyError Unit
  | s, _, [] => (s, .ok ())
  | s, eid, req :: rest =>
    match addc s eid req [] with
    | (s2, .error e) => (s2, .error e)
    | (s2, .ok _) => registerRequiresAux addc s2 eid rest

/-- ComponentSystem.register: no-op when a record already exists; otherwise
attach every required component first (a failure there propagates), then
construct the record (recordtype construction can raise TypeError) and
store it.  The on_register hooks touch only dispatcher state, which lives
outside CompState. -/
def sysRegisterAux
    (addc : CompState → String → String → Record → CompState × Except PyError Unit)
    (s : CompState) (eid kind : String) (kwargs : Record) :
    CompState × Except PyError Unit :=
  match storeGet s kind eid with
  | some _ => (s, .ok ())
  | Option.none =>
    match registerRequiresAux addc s eid (requiresOf kind) with
    | (s2, .error e) => (s2, .error e)
    | (s2, .ok _) =>
      match buildRecord kind kwargs with
      | .error e => (s2, .error e)
      | .ok r => (storePut s2 kind eid r, .ok ())

/-- Entity.add_component: append the kind to `self.components` (before any
registration work), then delegate to the kind's system; a kind missing from
the registry raises KeyError from World.get_system, after the append. -/
def add_component : Nat → CompState → String → String → Record →
    CompState × Except PyError Unit
  | 0, s, _, _, _ => (s, .error .recursionError)
  | Nat.succ f, s, eid, kind, kwargs =>
    if kind ∈ s.components then (s, .ok ())
    else
      let s1 : CompState := { s with components := s.components ++ [kind] }
      if kind ∈ component_systems then sysRegisterAux (add_component f) s1 eid kind kwargs
      else (s1, .error .keyError)

/-- ComponentSystem.register at a given recursion depth. -/
def sysRegister (fuel : Nat) (s : CompState) (eid kind : String) (kwargs : Record) :
    CompState × Except PyError Unit :=
  sysRegisterAux (add_component fuel) s eid kind kwargs

/-- ComponentSystem.unregister: delete the record if present (idempotent
otherwise); the on_unregister hook is a pass for every concrete system. -/
def sysUnregister (s : CompState) (eid kind : String) : CompState :=
  match storeGet s kind eid with
  | some _ => storeDel s kind eid
  | Option.none => s

/-- Entity.remove_component: remove the kind from `self.components` first,
then look up the system (KeyError for an unregistered kind) and unregister. -/
def remove_component (s : CompState) (eid kind : String) :
    CompState × Except PyError Unit :=
  if kind ∈ s.components then
    let s1 : CompState := { s with components := s.components.erase kind }
    if kind ∈ component_systems then (sysUnregister s1 eid kind, .ok ())
    else (s1, .error .keyError)
  else (s, .ok ())

/-- Entity.has_component: a pure membership check on `self.components`. -/
def has_component (s : CompState) (kind : String) : Bool :=
  decide (kind ∈ s.components)

/-- Entity.get_component: returns None (`.ok Option.none`) when the kind is
not attached; otherwise queries the system, whose store lookup raises
KeyError when no record exists. -/
def Entity.get_component (s : CompState) (eid kind : String) :
    Except PyError (Option Record) :=
  if kind ∈ s.components then
    if kind ∈ component_systems then
      match storeGet s kind eid with
      | some r => .ok (some r)
      | Option.none => .error .keyError
    else .error .keyError
  else .ok Option.none

/-- ComponentSystem.get_component: `self.entities[entity.id]`, raising
KeyError when absent. -/
def ComponentSystem.get_component (s : CompState) (kind eid : String) :
    Except PyError Record :=
  match storeGet s kind eid with
  | some r => .ok r
  | Option.none => .error .keyError

/-- The health record of HealthComponentSystem, with recordtype defaults
(100, 100, 10, False). -/
structure HealthRecord where
  hp : Int
  hp_max : Int
  hp_regen : Int
  is_dead : Bool
deriving DecidableEq

/-- The per-record body of HealthComponentSystem.on_tick: skip when fully
healed or dead; otherwise add the regen, topping up by exactly the missing
amount when the regen would overshoot. -/
def healthTickOne (h : HealthRecord) : HealthRecord :=
  if h.hp = h.hp_max ∨ h.is_dead = true then h
  else if h.hp + h.hp_regen > h.hp_max then { h with hp := h.hp + (h.hp_max - h.hp) }
  else { h with hp := h.hp + h.hp_regen }

/-- HealthComponentSystem.on_tick: apply the regen step to every stored
health record. -/
def HealthComponentSystem.on_tick (store : List (String × HealthRecord)) :
    List (String × HealthRecord) :=
  store.map (fun p => (p.1, healthTickOne p.2))

/-- The session id a display call belongs to. -/
def sidOf : DisplayCall → Nat
  | .room sid _ => sid
  | .entity_arrived sid _ _ => sid
  | .entity_left sid _ _ _ => sid

/-- The display calls one session received, in order. -/
def outputsFor (sid : Nat) (l : List DisplayCall) : List DisplayCall :=
  l.filter (fun c => decide (sidOf c = sid))

/-- A session's arrival/departure display handlers are registered on the
dispatcher of exactly one room of the world, `rid` (counted, so each is
registered there exactly once and nowhere else). -/
def subscribedExactly (w : World) (rooms : List (String × Listeners)) (sid : Nat)
    (rid : String) : Prop :=
  ∀ p ∈ w.rooms,
    ((roomBucket rooms p.1 "arrived").count (Handler.display_entity_arrived sid)
        = if p.1 = rid then 1 else 0) ∧
    ((roomBucket rooms p.1 "left").count (Handler.display_entity_left sid)
        = if p.1 = rid then 1 else 0)

/-- A session's display handlers appear in no room bucket at all (the state
before the player component is registered). -/
def subscribedNowhere (rooms : List (String × Listeners)) (sid : Nat) : Prop :=
  ∀ rid event, Handler.display_entity_arrived sid ∉ roomBucket rooms rid event ∧
    Handler.display_entity_left sid ∉ roomBucket rooms rid event

instance (w : World) (rooms : List (String × Listeners)) (sid : Nat) (rid : String) :
    Decidable (subscribedExactly w rooms sid rid) := by
  unfold subscribedExactly
  exact inferInstance

/-- The spec's validity condition on a world definition, in its own words:
every exit target id referenced in the definition is a declared room id. -/
def specValidDef (d : WorldDef) : Prop :=
  ∀ p ∈ d, ∀ ex ∈ p.2.exits, ∃ q ∈ d, q.1 = ex.2

instance (d : WorldDef) : Decidable (specValidDef d) := by
  unfold specValidDef
  exact inferInstance

/-- The data-model invariant relative to an exclusion set `K` of kinds whose
registration is in progress: for every kind outside `K`, a record for
(entity, kind) exists in that kind's store iff the kind is in the entity's
components set. -/
def InvX (s : CompState) (eid : String) (K : List String) : Prop :=
  ∀ k, k ∉ K → (k ∈ s.components ↔ storeGet s k eid ≠ Option.none)

/-- The data-model invariant of the spec: record exists iff kind attached. -/
def compInv (s : CompState) (eid : String) : Prop := InvX s eid []

/-- Store keys are exactly registered kinds (World.initialize_systems builds
one store per registry entry and nothing ever adds another key). -/
def storesWF (s : CompState) : Prop :=
  ∀ k, k ∉ component_systems → alGet? s.stores k = Option.none

/-- Rank of a kind in the `requires` hierarchy, used to express that the
concrete requires table is acyclic. -/
def rank (k : String) : Nat := if k = "player" then 1 else 0

/-- Correctness statement for an add_component-like callee, relative to a
set `K` of kinds whose registration is in progress (each of higher rank than
the kind being added): a call that returns normally preserves the invariant
outside K, leaves the records of K-kinds untouched, only ever appends to the
components list, leaves the kind attached, and preserves duplicate-freeness
of the components list. -/
def addcOk
    (addc : CompState → String → String → Record → CompState × Except PyError Unit) :
    Prop :=
  ∀ (s : CompState) (eid kind : String) (kwargs : Record) (K : List String) (s2 : CompState),
    InvX s eid K → (∀ k ∈ K, rank kind < rank k) →
    addc s eid kind kwargs = (s2, Except.ok ()) →
    InvX s2 eid K ∧ (∀ k ∈ K, storeGet s2 k eid = storeGet s k eid) ∧
    (∀ c ∈ s.components, c ∈ s2.components) ∧ kind ∈ s2.components ∧
    (s.components.Nodup → s2.components.Nodup)

/- Concrete fixtures used by witnesses and counterexamples. -/

def testRoot : Room :=
  { id := "root", title := "t", description := "", exit_dict := [("north", "lab")] }

def testLab : Room :=
  { id := "lab", title := "u", description := "", exit_dict := [] }

def testWorld : World := { rooms := [("root", testRoot), ("lab", testLab)] }

def testState : MState :=
  { entity_room_map := [("e", "root")], roomListeners := [], entityListeners := [],
    sessionOf := [], output := [], trace := [] }

/-- The player-registered test state: session 7 bound to entity "e". -/
def testReg : MState := (player_on_register testState "e" 7).1

def selfRoot : Room :=
  { id := "root", title := "t", description := "", exit_dict := [("north", "root")] }

/-- A world whose root has a self-loop exit (the repository's own test world
has exactly this shape: exits north to the room itself). -/
def selfWorld : World := { rooms := [("root", selfRoot)] }

def goodDef : WorldDef :=
  [("root", { title := some "r", description := Option.none, exits := [("north", "lab")] }),
   ("lab", { title := Option.none, description := Option.none, exits := [] })]

def badDef : WorldDef :=
  [("root", { title := some "r", description := Option.none, exits := [("north", "nowhere")] })]

/- ===================== Association-list lemmas ===================== -/

theorem alGet?_insert_self {V : Type} (l : List (String × V)) (k : String) (v : V) :
    alGet? (alInsert l k v) k = some v := by
  induction l with
  | nil => simp [alInsert, alGet?]
  | cons p rest ih =>
    by_cases h : p.1 = k
    · simp [alInsert, h, alGet?]
    · simp [alInsert, h, alGet?, ih]

theorem alGet?_insert_ne {V : Type} (l : List (String × V)) {k k2 : String} (v : V)
    (h : k2 ≠ k) : alGet? (alInsert l k v) k2 = alGet? l k2 := by
  induction l with
  | nil => simp [alInsert, alGet?, Ne.symm h]
  | cons p rest ih =>
    by_cases hp : p.1 = k
    · simp [alInsert, hp, alGet?, Ne.symm h]
    · simp [alInsert, hp, alGet?, ih]

theorem alGet?_erase_self {V : Type} (l : List (String × V)) (k : String) :
    alGet? (alErase l k) k = Option.none := by
  induction l with
  | nil => simp [alErase, alGet?]
  | cons p rest ih =>
    by_cases h : p.1 = k
    · simpa [alErase, h] using ih
    · simpa [alErase, h, alGet?] using ih

theorem alGet?_eq_some_mem {V : Type} {l : List (String × V)} {k : String} {v : V}
    (h : alGet? l k = some v) : (k, v) ∈ l := by
  induction l with
  | nil => simp [alGet?] at h
  | cons p rest ih =>
    by_cases hp : p.1 = k
    · simp [alGet?, hp] at h
      have hkv : (k, v) = p := by rw [← hp, ← h]
      exact List.mem_cons.mpr (Or.inl hkv)
    · simp [alGet?, hp] at h
      exact List.mem_cons_of_mem _ (ih h)

theorem alGet?_isSome_of_mem {V : Type} {l : List (String × V)} {k : String} {v : V}
    (h : (k, v) ∈ l) : (alGet? l k).isSome := by
  induction l with
  | nil => cases h
  | cons p rest ih =>
    by_cases hp : p.1 = k
    · simp [alGet?, hp]
    · rcases List.mem_cons.mp h with h1 | h1
      · exact absurd (congrArg Prod.fst h1.symm) hp
      · simpa [alGet?, hp] using ih h1

theorem alGet?_map {A B : Type} (d : List (String × A)) (g : String → A → B) (k : String) :
    alGet? (d.map (fun p => (p.1, g p.1 p.2))) k = (alGet? d k).map (g k) := by
  induction d with
  | nil => simp [alGet?]
  | cons p rest ih =>
    by_cases hp : p.1 = k
    · subst hp; simp [alGet?]
    · simp [alGet?, hp, ih]

theorem alGet?_mapVal {A B : Type} (d : List (String × A)) (f : A → B) (k : String) :
    alGet? (d.map (fun p => (p.1, f p.2))) k = (alGet? d k).map f := by
  induction d with
  | nil => simp [alGet?]
  | cons p rest ih =>
    by_cases hp : p.1 = k
    · subst hp; simp [alGet?]
    · simp [alGet?, hp, ih]

/- ===================== C6: remove_handler ===================== -/

/-- C6 counterexample: the claim says remove_handler never raises even when
a bucket exists but does not contain the handler; but with a non-empty
"e" bucket holding only player_moved, removing a display handler hits
`list.remove` on a list not containing it, which raises ValueError. -/
theorem C6_counterexample :
    EventDispatcher.remove_handler [("e", [Handler.player_moved])] "e"
      (Handler.display_entity_arrived 0) = .error .valueError := by decide

/-- C6 amended: remove_handler is a silent no-op (and cannot raise) when the
event name has no listener bucket or an empty one; when the bucket contains
the handler it deregisters its first occurrence, leaving other events'
buckets unchanged; but when a non-empty bucket does not contain the handler
it raises ValueError. -/
theorem C6_amended (L : Listeners) (event : String) (h : Handler) :
    (alBucket L event = [] → EventDispatcher.remove_handler L event h = .ok L) ∧
    (h ∈ alBucket L event →
      ∃ L2, EventDispatcher.remove_handler L event h = .ok L2 ∧
        alBucket L2 event = (alBucket L event).erase h ∧
        ∀ e2, e2 ≠ event → alBucket L2 e2 = alBucket L e2) ∧
    (alBucket L event ≠ [] → h ∉ alBucket L event →
      EventDispatcher.remove_handler L event h = .error .valueError) := by
  refine ⟨?_, ?_, ?_⟩
  · intro hb
    simp [EventDispatcher.remove_handler, hb]
  · intro hmem
    have hne : ¬ (alBucket L event).isEmpty := by
      rw [List.isEmpty_iff]
      intro hc
      rw [hc] at hmem
      cases hmem
    refine ⟨alInsert L event ((alBucket L event).erase h), ?_, ?_, ?_⟩
    · simp [EventDispatcher.remove_handler, hne, hmem]
    · simp [alBucket, alGet?_insert_self]
    · intro e2 he2
      simp [alBucket, alGet?_insert_ne _ _ he2]
  · intro hne hmem
    have hne2 : ¬ (alBucket L event).isEmpty := by
      rw [List.isEmpty_iff]; exact hne
    simp [EventDispatcher.remove_handler, hne2, hmem]

/-- C6 witness: concrete instance of the no-bucket no-op case. -/
theorem C6_witness :
    EventDispatcher.remove_handler [("x", [Handler.player_moved])] "y"
      Handler.player_moved = .ok [("x", [Handler.player_moved])] :=
  (C6_amended [("x", [Handler.player_moved])] "y" Handler.player_moved).1 (by decide)

/- ===================== C4: health regeneration ===================== -/

/-- C4: on a tick, a health record is unchanged when dead or fully healed,
and otherwise its hp becomes exactly min (hp + hp_regen) hp_max (no
overshoot), all other fields unchanged, never exceeding hp_max. -/
theorem C4_health_tick (store : List (String × HealthRecord)) (eid : String)
    (h : HealthRecord) (hmem : alGet? store eid = some h) :
    (h.is_dead = true ∨ h.hp = h.hp_max →
      alGet? (HealthComponentSystem.on_tick store) eid = some h) ∧
    (h.is_dead = false → h.hp ≠ h.hp_max →
      alGet? (HealthComponentSystem.on_tick store) eid =
        some { h with hp := min (h.hp + h.hp_regen) h.hp_max } ∧
      min (h.hp + h.hp_regen) h.hp_max ≤ h.hp_max) := by
  have hmap : alGet? (HealthComponentSystem.on_tick store) eid =
      some (healthTickOne h) := by
    unfold HealthComponentSystem.on_tick
    rw [alGet?_mapVal, hmem]
    rfl
  constructor
  · intro hskip
    rw [hmap]
    have : healthTickOne h = h := by
      unfold healthTickOne
      rcases hskip with hd | hm
      · rw [if_pos (Or.inr hd)]
      · rw [if_pos (Or.inl hm)]
    rw [this]
  · intro hdead hhp
    constructor
    · rw [hmap]
      unfold healthTickOne
      rw [if_neg (by simp [hdead, hhp])]
      by_cases hover : h.hp + h.hp_regen > h.hp_max
      · rw [if_pos hover]
        have h1 : h.hp + (h.hp_max - h.hp) = min (h.hp + h.hp_regen) h.hp_max := by
          omega
        rw [h1]
      · rw [if_neg hover]
        have h1 : h.hp + h.hp_regen = min (h.hp + h.hp_regen) h.hp_max := by
          omega
        rw [← h1]
    · exact min_le_right _ _

/-- C4 witness: hp 95 regen 10 clamps to 100; hp 100 stays; dead stays. -/
theorem C4_witness :
    alGet? (HealthComponentSystem.on_tick [("e", ⟨95, 100, 10, false⟩)]) "e"
      = some ⟨100, 100, 10, false⟩ ∧
    alGet? (HealthComponentSystem.on_tick [("d", ⟨100, 100, 10, false⟩)]) "d"
      = some ⟨100, 100, 10, false⟩ ∧
    alGet? (HealthComponentSystem.on_tick [("z", ⟨7, 100, 10, true⟩)]) "z"
      = some ⟨7, 100, 10, true⟩ := by
  refine ⟨?_, ?_, ?_⟩
  · have h1 := (C4_health_tick [("e", ⟨95, 100, 10, false⟩)] "e" ⟨95, 100, 10, false⟩
      (by decide)).2 rfl (by decide)
    have h2 : min ((95 : Int) + 10) 100 = 100 := by decide
    simpa [h2] using h1.1
  · exact (C4_health_tick [("d", ⟨100, 100, 10, false⟩)] "d" ⟨100, 100, 10, false⟩
      (by decide)).1 (Or.inr rfl)
  · exact (C4_health_tick [("z", ⟨7, 100, 10, true⟩)] "z" ⟨7, 100, 10, true⟩
      (by decide)).1 (Or.inl rfl)

/- ===================== C2: move with no exit ===================== -/

/-- C2: when the current room has no exit in the direction, Entity.move
returns the failure result (False, "You cannot go that way.") with a
non-empty message and the entire world state — location map, listener
tables, outputs and trace — is returned unchanged, so no event fires. -/
theorem C2_move_no_exit (w : World) (s : MState) (eid direction : String)
    (prev_room : Room)
    (h1 : (alGet? s.entity_room_map eid).bind (World.get_room w) = some prev_room)
    (h2 : Room.get_exit w prev_room direction = Option.none) :
    Entity.move w s eid direction = (s, .ok (false, some "You cannot go that way.")) ∧
    "You cannot go that way." ≠ "" := by
  constructor
  · unfold Entity.move
    split
    · next heq => rw [h1] at heq; cases heq
    · next pr heq =>
      rw [h1] at heq
      injection heq with heq
      subst heq
      split
      · rfl
      · next nr heq2 => rw [h2] at heq2; cases heq2
  · decide

/-- C2 witness: moving south from the test root (which only exits north)
fails and leaves the state untouched. -/
theorem C2_witness :
    Entity.move testWorld testState "e" "south"
      = (testState, .ok (false, some "You cannot go that way.")) :=
  (C2_move_no_exit testWorld testState "e" "south" testRoot (by decide) (by decide)).1

/- ===================== dispatch bookkeeping lemmas ===================== -/

theorem dispatchStep_trace (o : Owner) (p : Payload) (st : MState) (h : Handler) :
    (dispatchStep o p st h).trace = st.trace := rfl

theorem dispatchStep_map (o : Owner) (p : Payload) (st : MState) (h : Handler) :
    (dispatchStep o p st h).entity_room_map = st.entity_room_map := rfl

theorem dispatchStep_el (o : Owner) (p : Payload) (st : MState) (h : Handler) :
    (dispatchStep o p st h).entityListeners = st.entityListeners := rfl

theorem dispatchStep_sess (o : Owner) (p : Payload) (st : MState) (h : Handler) :
    (dispatchStep o p st h).sessionOf = st.sessionOf := rfl

theorem foldl_dispatchStep_trace (o : Owner) (p : Payload) (ls : List Handler) :
    ∀ st : MState, (ls.foldl (dispatchStep o p) st).trace = st.trace := by
  induction ls with
  | nil => intro st; rfl
  | cons hd tl ih => intro st; rw [List.foldl_cons, ih, dispatchStep_trace]

theorem foldl_dispatchStep_map (o : Owner) (p : Payload) (ls : List Handler) :
    ∀ st : MState, (ls.foldl (dispatchStep o p) st).entity_room_map = st.entity_room_map := by
  induction ls with
  | nil => intro st; rfl
  | cons hd tl ih => intro st; rw [List.foldl_cons, ih, dispatchStep_map]

theorem foldl_dispatchStep_el (o : Owner) (p : Payload) (ls : List Handler) :
    ∀ st : MState, (ls.foldl (dispatchStep o p) st).entityListeners = st.entityListeners := by
  induction ls with
  | nil => intro st; rfl
  | cons hd tl ih => intro st; rw [List.foldl_cons, ih, dispatchStep_el]

theorem foldl_dispatchStep_sess (o : Owner) (p : Payload) (ls : List Handler) :
    ∀ st : MState, (ls.foldl (dispatchStep o p) st).sessionOf = st.sessionOf := by
  induction ls with
  | nil => intro st; rfl
  | cons hd tl ih => intro st; rw [List.foldl_cons, ih, dispatchStep_sess]

theorem dispatch_trace (s : MState) (o : Owner) (e : String) (p : Payload) :
    (dispatch s o e p).trace = s.trace ++ [Eff.dispatched o e p] := by
  unfold dispatch
  rw [foldl_dispatchStep_trace]

theorem dispatch_map (s : MState) (o : Owner) (e : String) (p : Payload) :
    (dispatch s o e p).entity_room_map = s.entity_room_map := by
  unfold dispatch
  rw [foldl_dispatchStep_map]

theorem dispatch_el (s : MState) (o : Owner) (e : String) (p : Payload) :
    (dispatch s o e p).entityListeners = s.entityListeners := by
  unfold dispatch
  rw [foldl_dispatchStep_el]

theorem dispatch_sess (s : MState) (o : Owner) (e : String) (p : Payload) :
    (dispatch s o e p).sessionOf = s.sessionOf := by
  unfold dispatch
  rw [foldl_dispatchStep_sess]

/-- The shape of Entity.move on a valid exit: location write, then the three
dispatches, then the success result. -/
theorem move_valid_eq (w : World) (s : MState) (eid direction : String)
    (prev next : Room)
    (h1 : (alGet? s.entity_room_map eid).bind (World.get_room w) = some prev)
    (h2 : Room.get_exit w prev direction = some next) :
    Entity.move w s eid direction =
      (dispatch
        (dispatch
          (dispatch
            { s with
              entity_room_map := alInsert s.entity_room_map eid next.id
              trace := s.trace ++ [Eff.set_room eid next.id] }
            (.room next.id) "arrived" (.arrived eid))
          (.entity eid) "moved" (.moved prev.id next.id))
        (.room prev.id) "left" (.left eid direction),
       .ok (true, Option.none)) := by
  unfold Entity.move
  split
  · next heq => rw [h1] at heq; cases heq
  · next pr heq =>
    rw [h1] at heq
    injection heq with heq
    subst heq
    split
    · next heq2 => rw [h2] at heq2; cases heq2
    · next nr heq2 =>
      rw [h2] at heq2
      injection heq2 with heq2
      subst heq2
      rfl

/- ===================== C1: move through a valid exit ===================== -/

/-- C1: moving through a valid exit returns the success result (True, None),
writes the entity's resolved room to the exit target, and the effect trace
extends by exactly one location write followed by exactly one "arrived"
dispatch on the destination room, one "moved" dispatch on the entity (with
from/to payload), and one "left" dispatch on the origin room (with
entity/direction payload), in that fixed order — the location update
preceding every event. -/
theorem C1_move_valid_exit (w : World) (s : MState) (eid direction : String)
    (prev next : Room)
    (h1 : (alGet? s.entity_room_map eid).bind (World.get_room w) = some prev)
    (h2 : Room.get_exit w prev direction = some next) :
    (Entity.move w s eid direction).2 = .ok (true, Option.none) ∧
    alGet? (Entity.move w s eid direction).1.entity_room_map eid = some next.id ∧
    (Entity.move w s eid direction).1.trace = s.trace ++
      [Eff.set_room eid next.id,
       Eff.dispatched (.room next.id) "arrived" (.arrived eid),
       Eff.dispatched (.entity eid) "moved" (.moved prev.id next.id),
       Eff.dispatched (.room prev.id) "left" (.left eid direction)] := by
  have he := move_valid_eq w s eid direction prev next h1 h2
  refine ⟨by rw [he], ?_, ?_⟩
  · rw [he]
    show alGet? (dispatch (dispatch (dispatch _ _ _ _) _ _ _) _ _ _).entity_room_map eid = _
    rw [dispatch_map, dispatch_map, dispatch_map]
    exact alGet?_insert_self _ _ _
  · rw [he]
    show (dispatch (dispatch (dispatch _ _ _ _) _ _ _) _ _ _).trace = _
    rw [dispatch_trace, dispatch_trace, dispatch_trace]
    simp [List.append_assoc]

/-- C1 witness: the concrete two-room world, entity "e" moving north from
root to lab. -/
theorem C1_witness :
    (Entity.move testWorld testState "e" "north").2 = .ok (true, Option.none) ∧
    alGet? (Entity.move testWorld testState "e" "north").1.entity_room_map "e"
      = some testLab.id ∧
    (Entity.move testWorld testState "e" "north").1.trace = testState.trace ++
      [Eff.set_room "e" testLab.id,
       Eff.dispatched (.room testLab.id) "arrived" (.arrived "e"),
       Eff.dispatched (.entity "e") "moved" (.moved testRoot.id testLab.id),
       Eff.dispatched (.room testRoot.id) "left" (.left "e" "north")] :=
  C1_move_valid_exit testWorld testState "e" "north" testRoot testLab
    (by decide) (by decide)

/- ===================== C5 / C10: world construction and lookup ============ -/

theorem alGet?_isSome_iff_existsKey {V : Type} (l : List (String × V)) (k : String) :
    (alGet? l k).isSome ↔ ∃ q ∈ l, q.1 = k := by
  constructor
  · intro h
    rcases Option.isSome_iff_exists.mp h with ⟨v, hv⟩
    exact ⟨(k, v), alGet?_eq_some_mem hv, rfl⟩
  · rintro ⟨q, hq, hq1⟩
    have : (k, q.2) ∈ l := by
      rw [← hq1]
      exact hq
    exact alGet?_isSome_of_mem this

theorem validate_ok_iff (d : WorldDef) : World.validate d = .ok () ↔ specValidDef d := by
  unfold World.validate
  by_cases hc : d.all (fun p => p.2.exits.all (fun ex => (alGet? d ex.2).isSome)) = true
  · rw [if_pos hc]
    simp only [List.all_eq_true] at hc
    constructor
    · intro _ p hp ex hex
      have := hc p hp
      simp only [List.all_eq_true] at this
      exact (alGet?_isSome_iff_existsKey d ex.2).mp (this ex hex)
    · intro _
      rfl
  · rw [if_neg hc]
    constructor
    · intro h
      cases h
    · intro hv
      exfalso
      apply hc
      simp only [List.all_eq_true]
      intro p hp ex hex
      exact (alGet?_isSome_iff_existsKey d ex.2).mpr (hv p hp ex hex)

theorem validate_cases (d : WorldDef) :
    World.validate d = .ok () ∨ World.validate d = .error .worldValidationError := by
  unfold World.validate
  by_cases hc : d.all (fun p => p.2.exits.all (fun ex => (alGet? d ex.2).isSome)) = true
  · left; rw [if_pos hc]
  · right; rw [if_neg hc]

theorem init_ok_iff (d : WorldDef) : (∃ w, World.init d = .ok w) ↔ specValidDef d := by
  constructor
  · rintro ⟨w, hw⟩
    unfold World.init at hw
    rcases validate_cases d with h | h
    · exact (validate_ok_iff d).mp h
    · rw [h] at hw; cases hw
  · intro hv
    refine ⟨{ rooms := World.build d }, ?_⟩
    unfold World.init
    rw [(validate_ok_iff d).mpr hv]

theorem init_fail {d : WorldDef} (h : ¬ specValidDef d) :
    World.init d = .error .worldValidationError := by
  rcases validate_cases d with hv | hv
  · exact absurd ((validate_ok_iff d).mp hv) h
  · unfold World.init
    rw [hv]

theorem init_ok_rooms {d : WorldDef} {w : World} (hw : World.init d = .ok w) :
    w.rooms = World.build d := by
  unfold World.init at hw
  rcases validate_cases d with h | h
  · rw [h] at hw
    injection hw with hw
    rw [← hw]
  · rw [h] at hw; cases hw

theorem alGet?_build (d : WorldDef) (k : String) :
    alGet? (World.build d) k = (alGet? d k).map (roomOf k) := by
  unfold World.build
  exact alGet?_map d roomOf k

theorem built_room_per_id {d : WorldDef} {w : World} (hw : World.init d = .ok w) :
    ∀ p ∈ d, ∃ r, World.get_room w p.1 = some r ∧ r.id = p.1 := by
  intro p hp
  have hs : (alGet? d p.1).isSome :=
    (alGet?_isSome_iff_existsKey d p.1).mpr ⟨p, hp, rfl⟩
  rcases Option.isSome_iff_exists.mp hs with ⟨rd, hrd⟩
  refine ⟨roomOf p.1 rd, ?_, rfl⟩
  unfold World.get_room
  rw [init_ok_rooms hw, alGet?_build, hrd]
  rfl

theorem built_exit_resolves {d : WorldDef} {w : World} (hw : World.init d = .ok w) :
    ∀ id r dir t, World.get_room w id = some r → alGet? r.exit_dict dir = some t →
      ∃ r2, Room.get_exit w r dir = some r2 ∧ r2.id = t := by
  intro id r dir t hroom hdir
  have hv : specValidDef d := (init_ok_iff d).mp ⟨w, hw⟩
  unfold World.get_room at hroom
  rw [init_ok_rooms hw, alGet?_build] at hroom
  rcases Option.map_eq_some'.mp hroom with ⟨rd, hrd, hr⟩
  have hmemd : (id, rd) ∈ d := alGet?_eq_some_mem hrd
  have hed : r.exit_dict = rd.exits := by rw [← hr]; rfl
  rw [hed] at hdir
  have hexit : (dir, t) ∈ rd.exits := alGet?_eq_some_mem hdir
  have ht : (alGet? d t).isSome := by
    rw [alGet?_isSome_iff_existsKey]
    exact hv (id, rd) hmemd (dir, t) hexit
  rcases Option.isSome_iff_exists.mp ht with ⟨rd2, hrd2⟩
  refine ⟨roomOf t rd2, ?_, rfl⟩
  have hge : Room.get_exit w r dir = World.get_room w t := by
    unfold Room.get_exit
    rw [hed, hdir]
  rw [hge]
  unfold World.get_room
  rw [init_ok_rooms hw, alGet?_build, hrd2]
  rfl

/-- C5: World construction from a definition succeeds iff every referenced
exit target is a declared room id; on success every declared room id maps to
a Room resolvable by get_room whose exits resolve through get_exit; and on
an undeclared exit target, __init__ raises WorldValidationError, so no World
value exists (Except.error). -/
theorem C5_world_construction (d : WorldDef) :
    ((∃ w, World.init d = .ok w) ↔ specValidDef d) ∧
    (∀ w, World.init d = .ok w →
      (∀ p ∈ d, ∃ r, World.get_room w p.1 = some r ∧ r.id = p.1) ∧
      (∀ id r dir t, World.get_room w id = some r → alGet? r.exit_dict dir = some t →
        ∃ r2, Room.get_exit w r dir = some r2 ∧ r2.id = t)) ∧
    (¬ specValidDef d → World.init d = .error .worldValidationError) :=
  ⟨init_ok_iff d,
   fun _ hw => ⟨built_room_per_id hw, built_exit_resolves hw⟩,
   fun h => init_fail h⟩

/-- C5 witness: a valid two-room definition constructs; a definition whose
exit points at an undeclared id raises. -/
theorem C5_witness :
    (∃ w, World.init goodDef = .ok w) ∧
    World.init badDef = .error .worldValidationError :=
  ⟨(C5_world_construction goodDef).1.mpr (by decide),
   (C5_world_construction badDef).2.2 (by decide)⟩

/-- C10: World.get_room is total, returning some room exactly when the id is
a key of the world's room map and none otherwise; Room.get_exit is total for
every direction string, returning none without error when the direction has
no exit entry, and the neighboring room when it has one (in a world built
from a definition, where exit targets were validated). -/
theorem C10_lookup_total :
    (∀ (w : World) (id : String),
      (∃ r, World.get_room w id = some r) ↔ ∃ p ∈ w.rooms, p.1 = id) ∧
    (∀ (w : World) (r : Room) (dir : String), alGet? r.exit_dict dir = Option.none →
      Room.get_exit w r dir = Option.none) ∧
    (∀ (d : WorldDef) (w : World), World.init d = .ok w →
      ∀ id r dir t, World.get_room w id = some r → alGet? r.exit_dict dir = some t →
        ∃ r2, Room.get_exit w r dir = some r2 ∧ r2.id = t) := by
  refine ⟨?_, ?_, ?_⟩
  · intro w id
    rw [← alGet?_isSome_iff_existsKey]
    unfold World.get_room
    exact Option.isSome_iff_exists.symm
  · intro w r dir hnone
    unfold Room.get_exit
    rw [hnone]
  · intro d w hw
    exact built_exit_resolves hw

/-- C10 witness: lookup of a present id succeeds; get_exit on a direction
without an entry is None without error. -/
theorem C10_witness :
    (∃ r, World.get_room testWorld "root" = some r) ∧
    Room.get_exit testWorld testLab "north" = Option.none :=
  ⟨(C10_lookup_total.1 testWorld "root").mpr (by decide),
   C10_lookup_total.2.1 testWorld testLab "north" (by decide)⟩

/- ============ C3 / C7 / C8: component bookkeeping ============ -/

theorem storeGet_put_self (s : CompState) (kind eid : String) (r : Record) :
    storeGet (storePut s kind eid r) kind eid = some r := by
  unfold storeGet storePut
  rw [alGet?_insert_self]
  exact alGet?_insert_self _ _ _

theorem storeGet_put_ne (s : CompState) (kind eid : String) (r : Record) {k : String}
    (h : k ≠ kind) : storeGet (storePut s kind eid r) k eid = storeGet s k eid := by
  unfold storeGet storePut
  rw [alGet?_insert_ne _ _ h]

theorem storeGet_del_self (s : CompState) (kind eid : String) :
    storeGet (storeDel s kind eid) kind eid = Option.none := by
  unfold storeGet storeDel
  rw [alGet?_insert_self]
  exact alGet?_erase_self _ _

theorem storeGet_del_ne (s : CompState) (kind eid : String) {k : String} (h : k ≠ kind) :
    storeGet (storeDel s kind eid) k eid = storeGet s k eid := by
  unfold storeGet storeDel
  rw [alGet?_insert_ne _ _ h]

theorem rank_req {kind req : String} (h : req ∈ requiresOf kind) : rank req < rank kind := by
  unfold requiresOf at h
  by_cases hk : kind = "player"
  · rw [if_pos hk] at h
    have hr : req = "health" := by simpa using h
    subst hr
    rw [hk]
    decide
  · rw [if_neg hk] at h
    cases h

theorem not_mem_of_rank {kind : String} {K : List String}
    (h : ∀ k ∈ K, rank kind < rank k) : kind ∉ K :=
  fun hm => absurd (h kind hm) (lt_irrefl _)

theorem nodup_append_singleton {l : List String} {a : String} (h : l.Nodup) (ha : a ∉ l) :
    (l ++ [a]).Nodup := by
  rw [List.nodup_append]
  refine ⟨h, List.nodup_singleton a, ?_⟩
  intro x hx hxa
  rw [List.mem_singleton] at hxa
  subst hxa
  exact ha hx

theorem registerRequiresAux_ok
    {addc : CompState → String → String → Record → CompState × Except PyError Unit}
    (ha : addcOk addc) :
    ∀ (reqs : List String) (s : CompState) (eid : String) (K : List String) (s2 : CompState),
      InvX s eid K → (∀ req ∈ reqs, ∀ k ∈ K, rank req < rank k) →
      registerRequiresAux addc s eid reqs = (s2, Except.ok ()) →
      InvX s2 eid K ∧ (∀ k ∈ K, storeGet s2 k eid = storeGet s k eid) ∧
      (∀ c ∈ s.components, c ∈ s2.components) ∧
      (s.components.Nodup → s2.components.Nodup) := by
  intro reqs
  induction reqs with
  | nil =>
    intro s eid K s2 hInv _ h
    unfold registerRequiresAux at h
    injection h with h1 h2
    subst h1
    exact ⟨hInv, fun k _ => rfl, fun c hc => hc, id⟩
  | cons req rest ih =>
    intro s eid K s2 hInv hreqs h
    unfold registerRequiresAux at h
    cases hadd : addc s eid req [] with
    | mk sa ra =>
      rw [hadd] at h
      cases ra with
      | error e =>
        have h2 : (sa, Except.error e) = (s2, Except.ok ()) := h
        injection h2 with h21 h22
        exact Except.noConfusion h22
      | ok u =>
        have h2 : registerRequiresAux addc sa eid rest = (s2, Except.ok ()) := h
        obtain ⟨hInv2, hpres2, hmono2, _, hnd2⟩ :=
          ha s eid req [] K sa hInv (fun k hk => hreqs req (List.mem_cons_self req rest) k hk)
            hadd
        obtain ⟨hInv3, hpres3, hmono3, hnd3⟩ :=
          ih sa eid K s2 hInv2 (fun r hr k hk => hreqs r (List.mem_cons_of_mem _ hr) k hk) h2
        exact ⟨hInv3, fun k hk => (hpres3 k hk).trans (hpres2 k hk),
          fun c hc => hmono3 c (hmono2 c hc), fun hnd => hnd3 (hnd2 hnd)⟩

theorem sysRegisterAux_ok
    {addc : CompState → String → String → Record → CompState × Except PyError Unit}
    (ha : addcOk addc) (s : CompState) (eid kind : String) (kwargs : Record)
    (K : List String) (s2 : CompState)
    (hInv : InvX s eid (kind :: K)) (hrank : ∀ k ∈ K, rank kind < rank k)
    (hmem : kind ∈ s.components) (hnone : storeGet s kind eid = Option.none)
    (h : sysRegisterAux addc s eid kind kwargs = (s2, Except.ok ())) :
    InvX s2 eid K ∧ (∀ k ∈ K, storeGet s2 k eid = storeGet s k eid) ∧
    (∀ c ∈ s.components, c ∈ s2.components) ∧
    (s.components.Nodup → s2.components.Nodup) := by
  unfold sysRegisterAux at h
  rw [hnone] at h
  have hreqs : ∀ req ∈ requiresOf kind, ∀ k ∈ kind :: K, rank req < rank k := by
    intro req hreq k hk
    rcases List.mem_cons.mp hk with hk1 | hk1
    · subst hk1; exact rank_req hreq
    · exact lt_trans (rank_req hreq) (hrank k hk1)
  cases hrr : registerRequiresAux addc s eid (requiresOf kind) with
  | mk sa ra =>
    rw [hrr] at h
    cases ra with
    | error e =>
      have h2 : (sa, Except.error e) = (s2, Except.ok ()) := h
      injection h2 with h21 h22
      exact Except.noConfusion h22
    | ok u =>
      obtain ⟨hInv2, hpres2, hmono2, hnd2⟩ :=
        registerRequiresAux_ok ha (requiresOf kind) s eid (kind :: K) sa hInv hreqs hrr
      cases hbr : buildRecord kind kwargs with
      | error e =>
        rw [hbr] at h
        have h2 : (sa, Except.error e) = (s2, Except.ok ()) := h
        injection h2 with h21 h22
        exact Except.noConfusion h22
      | ok r =>
        rw [hbr] at h
        have h2 : (storePut sa kind eid r, Except.ok ()) = (s2, Except.ok ()) := h
        injection h2 with h21 h22
        subst h21
        have hkne : ∀ k ∈ K, k ≠ kind := by
          intro k hk hc
          subst hc
          exact absurd (hrank k hk) (lt_irrefl _)
        refine ⟨?_, ?_, ?_, ?_⟩
        · intro k hkK
          by_cases hkkind : k = kind
          · subst hkkind
            constructor
            · intro _
              rw [storeGet_put_self]
              exact fun hc => Option.noConfusion hc
            · intro _
              exact hmono2 k hmem
          · have hknotin : k ∉ kind :: K := by
              intro hc
              rcases List.mem_cons.mp hc with h1 | h1
              · exact hkkind h1
              · exact hkK h1
            have hiff := hInv2 k hknotin
            rw [storeGet_put_ne _ _ _ _ hkkind]
            exact hiff
        · intro k hk
          rw [storeGet_put_ne _ _ _ _ (hkne k hk)]
          exact hpres2 k (List.mem_cons_of_mem _ hk)
        · intro c hc
          exact hmono2 c hc
        · exact hnd2

theorem add_component_ok : ∀ fuel, addcOk (add_component fuel) := by
  intro fuel
  induction fuel with
  | zero =>
    intro s eid kind kwargs K s2 _ _ h
    simp only [add_component] at h
    injection h with h1 h2
    exact Except.noConfusion h2
  | succ f ih =>
    intro s eid kind kwargs K s2 hInv hrank h
    simp only [add_component] at h
    by_cases hmem : kind ∈ s.components
    · rw [if_pos hmem] at h
      injection h with h1 h2
      subst h1
      exact ⟨hInv, fun k _ => rfl, fun c hc => hc, hmem, id⟩
    · rw [if_neg hmem] at h
      by_cases hsys : kind ∈ component_systems
      · rw [if_pos hsys] at h
        have hkindK : kind ∉ K := not_mem_of_rank hrank
        have hnone : storeGet s kind eid = Option.none := by
          by_contra hc
          exact hmem ((hInv kind hkindK).mpr hc)
        have hInv1 : InvX { s with components := s.components ++ [kind] } eid (kind :: K) := by
          intro k hk
          have hk1 : k ≠ kind := fun hc => hk (hc ▸ List.mem_cons_self _ _)
          have hk2 : k ∉ K := fun hc => hk (List.mem_cons_of_mem _ hc)
          have hiff := hInv k hk2
          constructor
          · intro hin
            rcases List.mem_append.mp hin with h1 | h1
            · exact hiff.mp h1
            · rw [List.mem_singleton] at h1
              exact absurd h1 hk1
          · intro hne
            exact List.mem_append.mpr (Or.inl (hiff.mpr hne))
        have hkmem1 : kind ∈ ({ s with components := s.components ++ [kind] } : CompState).components :=
          List.mem_append.mpr (Or.inr (List.mem_singleton.mpr rfl))
        obtain ⟨hInv2, hpres2, hmono2, hnd2⟩ :=
          sysRegisterAux_ok ih _ eid kind kwargs K s2 hInv1 hrank hkmem1 hnone h
        refine ⟨hInv2, hpres2, ?_, hmono2 kind hkmem1, ?_⟩
        · intro c hc
          exact hmono2 c (List.mem_append.mpr (Or.inl hc))
        · intro hnd
          exact hnd2 (nodup_append_singleton hnd hmem)
      · rw [if_neg hsys] at h
        injection h with h1 h2
        exact Except.noConfusion h2

theorem storeGet_init (k eid : String) : storeGet initCompState k eid = Option.none := by
  unfold storeGet initCompState initStores component_systems
  simp only [List.map]
  simp only [alGet?]
  split_ifs <;> rfl

theorem compInv_init (eid : String) : compInv initCompState eid := by
  intro k _
  constructor
  · intro hin
    cases hin
  · intro hne
    exact absurd (storeGet_init k eid) hne

theorem storesWF_of_keys (s : CompState) (h : ∀ p ∈ s.stores, p.1 ∈ component_systems) :
    storesWF s := by
  intro k hk
  by_contra hne
  have hs : (alGet? s.stores k).isSome = true := Option.ne_none_iff_isSome.mp hne
  rcases (alGet?_isSome_iff_existsKey _ _).mp hs with ⟨q, hq, hq1⟩
  exact hk (hq1 ▸ h q hq)

theorem remove_preserves_inv (s : CompState) (eid kind : String) (s2 : CompState)
    (r : Except PyError Unit) (hInv : compInv s eid) (hnd : s.components.Nodup)
    (hwf : storesWF s) (h : remove_component s eid kind = (s2, r)) :
    compInv s2 eid := by
  unfold remove_component at h
  by_cases hmem : kind ∈ s.components
  · rw [if_pos hmem] at h
    by_cases hsys : kind ∈ component_systems
    · rw [if_pos hsys] at h
      injection h with h1 h2
      subst h1
      have hrec : storeGet s kind eid ≠ Option.none :=
        (hInv kind (List.not_mem_nil kind)).mp hmem
      rcases Option.ne_none_iff_exists'.mp hrec with ⟨r0, hr0⟩
      have hdel : sysUnregister { s with components := s.components.erase kind } eid kind
          = storeDel { s with components := s.components.erase kind } kind eid := by
        unfold sysUnregister
        rw [show storeGet { s with components := s.components.erase kind } kind eid
          = some r0 from hr0]
      rw [hdel]
      intro k _
      by_cases hkkind : k = kind
      · subst hkkind
        constructor
        · intro hin
          exact absurd rfl ((List.Nodup.mem_erase_iff hnd).mp hin).1
        · intro hne
          exact absurd (storeGet_del_self _ _ _) hne
      · have hiff := hInv k (List.not_mem_nil k)
        rw [storeGet_del_ne _ _ _ hkkind]
        constructor
        · intro hin
          exact hiff.mp ((List.Nodup.mem_erase_iff hnd).mp hin).2
        · intro hne
          exact (List.Nodup.mem_erase_iff hnd).mpr ⟨hkkind, hiff.mpr hne⟩
    · rw [if_neg hsys] at h
      exfalso
      have hrec : storeGet s kind eid ≠ Option.none :=
        (hInv kind (List.not_mem_nil kind)).mp hmem
      apply hrec
      unfold storeGet
      rw [hwf kind hsys]
      rfl
  · rw [if_neg hmem] at h
    injection h with h1 h2
    subst h1
    exact hInv

/-- C3 counterexample: add_component('armor') from a fresh entity raises
TypeError out of record construction, and afterwards 'armor' sits in the
entity's components set while the armor store has no record for it — the
kind is attached without a record, falsifying the claimed iff invariant for
calls that fail partway. -/
theorem C3_counterexample :
    (add_component 8 initCompState "e" "armor" []).2 = .error .typeError ∧
    "armor" ∈ (add_component 8 initCompState "e" "armor" []).1.components ∧
    storeGet (add_component 8 initCompState "e" "armor" []).1 "armor" "e" = Option.none :=
  ⟨by decide, by decide, by decide⟩

/-- C3 amended: the iff invariant (record exists iff kind attached) is
preserved by every add_component call that returns normally and by every
remove_component call from a duplicate-free state whose store keys are the
registered kinds; a registration that fails partway propagates its error
but can leave the kind attached without a record (see the counterexample). -/
theorem C3_amended :
    (∀ (fuel : Nat) (s : CompState) (eid kind : String) (kwargs : Record) (s2 : CompState),
      compInv s eid → add_component fuel s eid kind kwargs = (s2, Except.ok ()) →
      compInv s2 eid) ∧
    (∀ (s : CompState) (eid kind : String) (s2 : CompState) (r : Except PyError Unit),
      compInv s eid → s.components.Nodup → storesWF s →
      remove_component s eid kind = (s2, r) → compInv s2 eid) :=
  ⟨fun fuel s eid kind kwargs s2 hInv h =>
    (add_component_ok fuel s eid kind kwargs [] s2 hInv
      (fun k hk => absurd hk (List.not_mem_nil k)) h).1,
   fun s eid kind s2 r hInv hnd hwf h => remove_preserves_inv s eid kind s2 r hInv hnd hwf h⟩

/-- C3 witness: the invariant holds after registering player (with its
health cascade) and after a mobile add/remove round-trip. -/
theorem C3_witness :
    compInv (add_component 8 initCompState "e" "player" []).1 "e" ∧
    compInv (remove_component (add_component 8 initCompState "e" "mobile" []).1
      "e" "mobile").1 "e" := by
  constructor
  · exact C3_amended.1 8 initCompState "e" "player" []
      (add_component 8 initCompState "e" "player" []).1 (compInv_init "e") (by decide)
  · exact C3_amended.2 (add_component 8 initCompState "e" "mobile" []).1 "e" "mobile"
      (remove_component (add_component 8 initCompState "e" "mobile" []).1 "e" "mobile").1
      (remove_component (add_component 8 initCompState "e" "mobile" []).1 "e" "mobile").2
      (C3_amended.1 8 initCompState "e" "mobile" []
        (add_component 8 initCompState "e" "mobile" []).1 (compInv_init "e") (by decide))
      (by decide) (storesWF_of_keys _ (by decide)) (by decide)

/-- C7 (code bug): registering the armor component with no caller-supplied
attributes raises TypeError instead of producing a record with ac = 10:
the recordtype is built from the bare field name 'ac' with no default, and
the class-level defaults dict declaring ac = 10 is never consumed by
ComponentSystem.__init__. -/
theorem C7_armor_register_raises :
    sysRegister 8 initCompState "e" "armor" [] = (initCompState, .error .typeError) ∧
    buildRecord "armor" [] = .error .typeError :=
  ⟨by decide, by decide⟩

/-- C8 counterexample: after an add/remove round-trip of 'mobile',
Entity.get_component on that entity returns Python None (an absent value,
modelled .ok none) instead of failing as a lookup error. -/
theorem C8_counterexample :
    Entity.get_component
      (remove_component (add_component 8 initCompState "e" "mobile" []).1 "e" "mobile").1
      "e" "mobile" = .ok Option.none := by decide

/-- C8 amended: after add_component then remove_component both return
normally (from a duplicate-free invariant-satisfying state), has_component
is false, Entity.get_component returns None without raising, and the
System-level ComponentSystem.get_component fails with the KeyError lookup
error. -/
theorem C8_roundtrip (fuel : Nat) (s : CompState) (eid kind : String) (kwargs : Record)
    (s2 s3 : CompState)
    (hInv : compInv s eid) (hnd : s.components.Nodup)
    (h1 : add_component fuel s eid kind kwargs = (s2, Except.ok ()))
    (h2 : remove_component s2 eid kind = (s3, Except.ok ())) :
    has_component s3 kind = false ∧
    Entity.get_component s3 eid kind = .ok Option.none ∧
    ComponentSystem.get_component s3 kind eid = .error .keyError := by
  obtain ⟨hInv2, _, _, hmem2, hnd2f⟩ :=
    add_component_ok fuel s eid kind kwargs [] s2 hInv
      (fun k hk => absurd hk (List.not_mem_nil k)) h1
  have hnd2 := hnd2f hnd
  unfold remove_component at h2
  rw [if_pos hmem2] at h2
  by_cases hsys : kind ∈ component_systems
  · rw [if_pos hsys] at h2
    injection h2 with h21 h22
    subst h21
    have hrec : storeGet s2 kind eid ≠ Option.none :=
      (hInv2 kind (List.not_mem_nil kind)).mp hmem2
    rcases Option.ne_none_iff_exists'.mp hrec with ⟨r0, hr0⟩
    have hnotin : kind ∉ s2.components.erase kind := by
      intro hc
      exact ((List.Nodup.mem_erase_iff hnd2).mp hc).1 rfl
    have hdel : sysUnregister { s2 with components := s2.components.erase kind } eid kind
        = storeDel { s2 with components := s2.components.erase kind } kind eid := by
      unfold sysUnregister
      rw [show storeGet { s2 with components := s2.components.erase kind } kind eid
        = some r0 from hr0]
    rw [hdel]
    have hnotin2 : kind ∉ (storeDel { s2 with components := s2.components.erase kind }
        kind eid).components := hnotin
    refine ⟨?_, ?_, ?_⟩
    · exact decide_eq_false hnotin2
    · unfold Entity.get_component
      rw [if_neg hnotin2]
    · unfold ComponentSystem.get_component
      rw [storeGet_del_self]
  · rw [if_neg hsys] at h2
    injection h2 with h21 h22
    exact Except.noConfusion h22

/-- C8 witness: the concrete mobile round-trip. -/
theorem C8_witness :
    has_component (remove_component (add_component 8 initCompState "e" "mobile" []).1
      "e" "mobile").1 "mobile" = false ∧
    Entity.get_component (remove_component (add_component 8 initCompState "e" "mobile" []).1
      "e" "mobile").1 "e" "mobile" = .ok Option.none ∧
    ComponentSystem.get_component (remove_component
      (add_component 8 initCompState "e" "mobile" []).1 "e" "mobile").1 "mobile" "e"
      = .error .keyError :=
  C8_roundtrip 8 initCompState "e" "mobile" []
    (add_component 8 initCompState "e" "mobile" []).1
    (remove_component (add_component 8 initCompState "e" "mobile" []).1 "e" "mobile").1
    (compInv_init "e") (by decide) (by decide) (by decide)

/- ===================== C9: player subscription wiring ===================== -/

theorem lsOf_insert_self (m : List (String × Listeners)) (k : String) (L : Listeners) :
    lsOf (alInsert m k L) k = L := by
  unfold lsOf
  rw [alGet?_insert_self]
  rfl

theorem lsOf_insert_ne (m : List (String × Listeners)) (k : String) (L : Listeners)
    {k2 : String} (h : k2 ≠ k) : lsOf (alInsert m k L) k2 = lsOf m k2 := by
  unfold lsOf
  rw [alGet?_insert_ne _ _ h]

theorem alBucket_insert_self (L : Listeners) (ev : String) (b : List Handler) :
    alBucket (alInsert L ev b) ev = b := by
  unfold alBucket
  rw [alGet?_insert_self]
  rfl

theorem alBucket_insert_ne (L : Listeners) (ev : String) (b : List Handler)
    {ev2 : String} (h : ev2 ≠ ev) : alBucket (alInsert L ev b) ev2 = alBucket L ev2 := by
  unfold alBucket
  rw [alGet?_insert_ne _ _ h]

theorem alBucket_insert_left_arrived (L : Listeners) (b : List Handler) :
    alBucket (alInsert L "left" b) "arrived" = alBucket L "arrived" :=
  alBucket_insert_ne L "left" b (by decide)

theorem alBucket_insert_arrived_left (L : Listeners) (b : List Handler) :
    alBucket (alInsert L "arrived" b) "left" = alBucket L "left" :=
  alBucket_insert_ne L "arrived" b (by decide)

/-- remove_handler on a bucket containing the handler: first occurrence
removed, written back. -/
theorem remove_handler_of_mem (L : Listeners) (ev : String) (h : Handler)
    (hmem : h ∈ alBucket L ev) :
    EventDispatcher.remove_handler L ev h
      = .ok (alInsert L ev ((alBucket L ev).erase h)) := by
  have hne : ¬ (alBucket L ev).isEmpty := by
    rw [List.isEmpty_iff]
    intro hc
    rw [hc] at hmem
    cases hmem
  simp [EventDispatcher.remove_handler, hne, hmem]

/-- add_handler on a bucket not containing the handler: appended. -/
theorem add_handler_of_not_mem (L : Listeners) (ev : String) (h : Handler)
    (hnm : h ∉ alBucket L ev) :
    EventDispatcher.add_handler L ev h = alInsert L ev (alBucket L ev ++ [h]) := by
  simp [EventDispatcher.add_handler, hnm]

theorem mem_of_count_one {l : List Handler} {h : Handler} (hc : l.count h = 1) : h ∈ l := by
  have : 0 < l.count h := by omega
  exact List.count_pos_iff.mp this

theorem outputsFor_append (sid : Nat) (a b : List DisplayCall) :
    outputsFor sid (a ++ b) = outputsFor sid a ++ outputsFor sid b := by
  unfold outputsFor
  exact List.filter_append a b

theorem applyListener_rooms_arrived (sessions : List (String × Nat))
    (rooms : List (String × Listeners)) (o : Owner) (e : String) (h : Handler) :
    (applyListener sessions rooms o (.arrived e) h).1 = rooms := by
  cases h <;> cases o <;> rfl

theorem applyListener_rooms_left (sessions : List (String × Nat))
    (rooms : List (String × Listeners)) (o : Owner) (e dir : String) (h : Handler) :
    (applyListener sessions rooms o (.left e dir) h).1 = rooms := by
  cases h <;> cases o <;> rfl

theorem applyListener_out_arrived (sessions : List (String × Nat))
    (rooms : List (String × Listeners)) (rid e : String) (sid : Nat) (h : Handler)
    (hne : h ≠ .display_entity_arrived sid) :
    outputsFor sid (applyListener sessions rooms (.room rid) (.arrived e) h).2 = [] := by
  cases h with
  | player_moved => rfl
  | display_entity_arrived sid2 =>
    have hs : sid2 ≠ sid := fun hc => hne (by rw [hc])
    simp [applyListener, outputsFor, sidOf, hs]
  | display_entity_left sid2 => rfl

theorem applyListener_out_left (sessions : List (String × Nat))
    (rooms : List (String × Listeners)) (rid e dir : String) (sid : Nat) (h : Handler)
    (hne : h ≠ .display_entity_left sid) :
    outputsFor sid (applyListener sessions rooms (.room rid) (.left e dir) h).2 = [] := by
  cases h with
  | player_moved => rfl
  | display_entity_arrived sid2 => rfl
  | display_entity_left sid2 =>
    have hs : sid2 ≠ sid := fun hc => hne (by rw [hc])
    simp [applyListener, outputsFor, sidOf, hs]

theorem foldl_rooms_arrived (rid e : String) (ls : List Handler) :
    ∀ st : MState,
      (ls.foldl (dispatchStep (.room rid) (.arrived e)) st).roomListeners
        = st.roomListeners := by
  induction ls with
  | nil => intro st; rfl
  | cons hd tl ih =>
    intro st
    rw [List.foldl_cons, ih]
    exact applyListener_rooms_arrived st.sessionOf st.roomListeners (.room rid) e hd

theorem foldl_rooms_left (rid e dir : String) (ls : List Handler) :
    ∀ st : MState,
      (ls.foldl (dispatchStep (.room rid) (.left e dir)) st).roomListeners
        = st.roomListeners := by
  induction ls with
  | nil => intro st; rfl
  | cons hd tl ih =>
    intro st
    rw [List.foldl_cons, ih]
    exact applyListener_rooms_left st.sessionOf st.roomListeners (.room rid) e dir hd

theorem foldl_out_arrived (rid e : String) (sid : Nat) (ls : List Handler) :
    ∀ st : MState, Handler.display_entity_arrived sid ∉ ls →
      outputsFor sid ((ls.foldl (dispatchStep (.room rid) (.arrived e)) st).output)
        = outputsFor sid st.output := by
  induction ls with
  | nil => intro st _; rfl
  | cons hd tl ih =>
    intro st hnotin
    rw [List.foldl_cons]
    have hd_ne : hd ≠ .display_entity_arrived sid :=
      fun hc => hnotin (hc ▸ List.mem_cons_self _ _)
    have htl : Handler.display_entity_arrived sid ∉ tl :=
      fun hc => hnotin (List.mem_cons_of_mem _ hc)
    rw [ih _ htl]
    show outputsFor sid (st.output ++
      (applyListener st.sessionOf st.roomListeners (.room rid) (.arrived e) hd).2)
      = outputsFor sid st.output
    rw [outputsFor_append,
      applyListener_out_arrived st.sessionOf st.roomListeners rid e sid hd hd_ne,
      List.append_nil]

theorem foldl_out_left (rid e dir : String) (sid : Nat) (ls : List Handler) :
    ∀ st : MState, Handler.display_entity_left sid ∉ ls →
      outputsFor sid ((ls.foldl (dispatchStep (.room rid) (.left e dir)) st).output)
        = outputsFor sid st.output := by
  induction ls with
  | nil => intro st _; rfl
  | cons hd tl ih =>
    intro st hnotin
    rw [List.foldl_cons]
    have hd_ne : hd ≠ .display_entity_left sid :=
      fun hc => hnotin (hc ▸ List.mem_cons_self _ _)
    have htl : Handler.display_entity_left sid ∉ tl :=
      fun hc => hnotin (List.mem_cons_of_mem _ hc)
    rw [ih _ htl]
    show outputsFor sid (st.output ++
      (applyListener st.sessionOf st.roomListeners (.room rid) (.left e dir) hd).2)
      = outputsFor sid st.output
    rw [outputsFor_append,
      applyListener_out_left st.sessionOf st.roomListeners rid e dir sid hd hd_ne,
      List.append_nil]

theorem dispatch_rooms_arrived (s : MState) (rid e : String) :
    (dispatch s (.room rid) "arrived" (.arrived e)).roomListeners = s.roomListeners := by
  unfold dispatch
  rw [foldl_rooms_arrived]

theorem dispatch_rooms_left (s : MState) (rid e dir : String) :
    (dispatch s (.room rid) "left" (.left e dir)).roomListeners = s.roomListeners := by
  unfold dispatch
  rw [foldl_rooms_left]

theorem dispatch_out_arrived (s : MState) (rid e : String) (sid : Nat)
    (h : Handler.display_entity_arrived sid ∉ alBucket (lsOf s.roomListeners rid) "arrived") :
    outputsFor sid (dispatch s (.room rid) "arrived" (.arrived e)).output
      = outputsFor sid s.output := by
  unfold dispatch
  exact foldl_out_arrived rid e sid _ _ h

theorem dispatch_out_left (s : MState) (rid e dir : String) (sid : Nat)
    (h : Handler.display_entity_left sid ∉ alBucket (lsOf s.roomListeners rid) "left") :
    outputsFor sid (dispatch s (.room rid) "left" (.left e dir)).output
      = outputsFor sid s.output := by
  unfold dispatch
  exact foldl_out_left rid e dir sid _ _ h

/-- Dispatching "moved" on an entity whose bucket holds exactly the system's
player_moved handler runs that handler once. -/
theorem dispatch_moved_player (s : MState) (eid : String) (pl : Payload)
    (hb : alBucket (ownerLs s (.entity eid)) "moved" = [Handler.player_moved]) :
    dispatch s (.entity eid) "moved" pl =
      { s with
        roomListeners :=
          (applyListener s.sessionOf s.roomListeners (.entity eid) pl .player_moved).1
        output := s.output ++
          (applyListener s.sessionOf s.roomListeners (.entity eid) pl .player_moved).2
        trace := s.trace ++ [Eff.dispatched (.entity eid) "moved" pl] } := by
  unfold dispatch
  rw [hb]
  rfl

theorem lsOf_insert2 (m : List (String × Listeners)) (k : String) (X Y : Listeners)
    (r : String) :
    lsOf (alInsert (alInsert m k X) k Y) r = if r = k then Y else lsOf m r := by
  by_cases h : r = k
  · subst h
    rw [if_pos rfl]
    exact lsOf_insert_self _ _ _
  · rw [if_neg h, lsOf_insert_ne _ _ _ h, lsOf_insert_ne _ _ _ h]

theorem alBucket_add_handler_ne (L : Listeners) (ev : String) (h : Handler)
    {ev2 : String} (hne : ev2 ≠ ev) :
    alBucket (EventDispatcher.add_handler L ev h) ev2 = alBucket L ev2 := by
  unfold EventDispatcher.add_handler
  by_cases hm : h ∈ alBucket L ev
  · rw [if_pos hm]
  · rw [if_neg hm]
    exact alBucket_insert_ne _ _ _ hne

theorem count_add_handler_self (L : Listeners) (ev : String) (h : Handler)
    (h0 : (alBucket L ev).count h = 0) :
    (alBucket (EventDispatcher.add_handler L ev h) ev).count h = 1 := by
  have hnm : h ∉ alBucket L ev := List.count_eq_zero.mp h0
  rw [add_handler_of_not_mem _ _ _ hnm, alBucket_insert_self, List.count_append, h0,
    List.count_singleton_self]

/-- Running PlayerComponentSystem.player_moved once, from a state where the
session is subscribed exactly once on the origin room and (iff origin equals
destination) on the destination: it emits exactly the display_room call and
afterwards the session's handlers sit exactly once on the destination's
buckets, exactly zero times on the origin's (when distinct), and all other
rooms are untouched. -/
theorem player_moved_apply (sessions : List (String × Nat))
    (rooms : List (String × Listeners)) (eid : String) (sid : Nat) (fromId toId : String)
    (hsess : alGet? sessions eid = some sid)
    (hA : (alBucket (lsOf rooms fromId) "arrived").count
      (Handler.display_entity_arrived sid) = 1)
    (hL : (alBucket (lsOf rooms fromId) "left").count
      (Handler.display_entity_left sid) = 1)
    (hTA : (alBucket (lsOf rooms toId) "arrived").count
      (Handler.display_entity_arrived sid) = if toId = fromId then 1 else 0)
    (hTL : (alBucket (lsOf rooms toId) "left").count
      (Handler.display_entity_left sid) = if toId = fromId then 1 else 0) :
    (applyListener sessions rooms (.entity eid) (.moved fromId toId) .player_moved).2
      = [DisplayCall.room sid toId] ∧
    (∀ r, (alBucket (lsOf (applyListener sessions rooms (.entity eid) (.moved fromId toId)
          .player_moved).1 r) "arrived").count (Handler.display_entity_arrived sid)
      = if r = toId then 1 else if r = fromId then 0
        else (alBucket (lsOf rooms r) "arrived").count (Handler.display_entity_arrived sid)) ∧
    (∀ r, (alBucket (lsOf (applyListener sessions rooms (.entity eid) (.moved fromId toId)
          .player_moved).1 r) "left").count (Handler.display_entity_left sid)
      = if r = toId then 1 else if r = fromId then 0
        else (alBucket (lsOf rooms r) "left").count (Handler.display_entity_left sid)) := by
  have hmemA : Handler.display_entity_arrived sid ∈ alBucket (lsOf rooms fromId) "arrived" :=
    mem_of_count_one hA
  have hmemL : Handler.display_entity_left sid ∈ alBucket (lsOf rooms fromId) "left" :=
    mem_of_count_one hL
  have hrm1 := remove_handler_of_mem (lsOf rooms fromId) "arrived"
    (Handler.display_entity_arrived sid) hmemA
  have hmemL1 : Handler.display_entity_left sid ∈ alBucket
      (alInsert (lsOf rooms fromId) "arrived"
        ((alBucket (lsOf rooms fromId) "arrived").erase
          (Handler.display_entity_arrived sid))) "left" := by
    rw [alBucket_insert_arrived_left]
    exact hmemL
  have hrm2 := remove_handler_of_mem _ "left" (Handler.display_entity_left sid) hmemL1
  refine ⟨?_, ?_, ?_⟩
  · simp only [applyListener, hsess, hrm1, lsOf_insert_self, hrm2]
  · intro r
    simp only [applyListener, hsess, hrm1, lsOf_insert_self, hrm2]
    rw [lsOf_insert2]
    by_cases hrt : r = toId
    · rw [if_pos hrt, if_pos hrt]
      rw [alBucket_add_handler_ne _ _ _ (by decide : "arrived" ≠ "left")]
      apply count_add_handler_self
      rw [lsOf_insert2]
      by_cases hft : toId = fromId
      · rw [if_pos hft, alBucket_insert_left_arrived, alBucket_insert_self,
          List.count_erase_self, hA]
      · rw [if_neg hft]
        rw [if_neg hft] at hTA
        exact hTA
    · rw [if_neg hrt, if_neg hrt, lsOf_insert2]
      by_cases hrf : r = fromId
      · rw [if_pos hrf, if_pos hrf, alBucket_insert_left_arrived, alBucket_insert_self,
          List.count_erase_self, hA]
      · rw [if_neg hrf, if_neg hrf]
  · intro r
    simp only [applyListener, hsess, hrm1, lsOf_insert_self, hrm2]
    rw [lsOf_insert2]
    by_cases hrt : r = toId
    · rw [if_pos hrt, if_pos hrt]
      apply count_add_handler_self
      rw [alBucket_add_handler_ne _ _ _ (by decide : "left" ≠ "arrived"), lsOf_insert2]
      by_cases hft : toId = fromId
      · rw [if_pos hft, alBucket_insert_self, List.count_erase_self,
          alBucket_insert_arrived_left, hL]
      · rw [if_neg hft]
        rw [if_neg hft] at hTL
        exact hTL
    · rw [if_neg hrt, if_neg hrt, lsOf_insert2]
      by_cases hrf : r = fromId
      · rw [if_pos hrf, if_pos hrf, alBucket_insert_self, List.count_erase_self,
          alBucket_insert_arrived_left, hL]
      · rw [if_neg hrf, if_neg hrf]

/-- The shape of PlayerComponentSystem.on_register for an entity that has a
current room. -/
theorem player_on_register_eq (s : MState) (eid : String) (sid : Nat) (rid : String)
    (h1 : alGet? s.entity_room_map eid = some rid) :
    player_on_register s eid sid =
      ({ s with
          entityListeners := alInsert s.entityListeners eid
            (EventDispatcher.add_handler (lsOf s.entityListeners eid) "moved" .player_moved)
          sessionOf := alInsert s.sessionOf eid sid
          roomListeners := alInsert
            (alInsert s.roomListeners rid
              (EventDispatcher.add_handler (lsOf s.roomListeners rid) "arrived"
                (.display_entity_arrived sid)))
            rid
            (EventDispatcher.add_handler
              (lsOf (alInsert s.roomListeners rid
                (EventDispatcher.add_handler (lsOf s.roomListeners rid) "arrived"
                  (.display_entity_arrived sid))) rid) "left"
              (.display_entity_left sid)) }, .ok ()) := by
  simp only [player_on_register, h1]

/-- Witnessless helper: a state with an empty room-listener table has no
session subscribed anywhere. -/
theorem subscribedNowhere_nil (sid : Nat) : subscribedNowhere [] sid := by
  intro rid event
  constructor <;> intro hc <;> cases hc

/-- C9 amended, part statements combined: (1) registering the player
component for an entity with a current room succeeds and subscribes the
session's display handlers on exactly that room; (2) a completed move keeps
the handlers on exactly the (new) current room, and when the destination
differs from the origin, the only display the moving session receives
during the move is its own room display — never its own "arrived" or
"left" notification. -/
theorem C9_amended :
    (∀ (w : World) (s : MState) (eid rid : String) (sid : Nat),
      alGet? s.entity_room_map eid = some rid →
      subscribedNowhere s.roomListeners sid →
      (player_on_register s eid sid).2 = .ok () ∧
      subscribedExactly w (player_on_register s eid sid).1.roomListeners sid rid) ∧
    (∀ (w : World) (s : MState) (eid direction : String) (sid : Nat) (prev next : Room),
      alGet? s.entity_room_map eid = some prev.id →
      World.get_room w prev.id = some prev →
      Room.get_exit w prev direction = some next →
      alGet? s.sessionOf eid = some sid →
      alBucket (lsOf s.entityListeners eid) "moved" = [Handler.player_moved] →
      (∀ p ∈ w.rooms, p.2.id = p.1) →
      subscribedExactly w s.roomListeners sid prev.id →
      (Entity.move w s eid direction).2 = .ok (true, Option.none) ∧
      subscribedExactly w (Entity.move w s eid direction).1.roomListeners sid next.id ∧
      (next.id ≠ prev.id →
        outputsFor sid (Entity.move w s eid direction).1.output
          = outputsFor sid s.output ++ [DisplayCall.room sid next.id])) := by
  constructor
  · intro w s eid rid sid h1 hnow
    rw [player_on_register_eq s eid sid rid h1]
    refine ⟨rfl, ?_⟩
    intro p hp
    simp only [roomBucket]
    rw [lsOf_insert2]
    constructor
    · by_cases hpr : p.1 = rid
      · rw [if_pos hpr, if_pos hpr, lsOf_insert_self,
          alBucket_add_handler_ne _ _ _ (by decide : "arrived" ≠ "left")]
        apply count_add_handler_self
        exact List.count_eq_zero.mpr (hnow rid "arrived").1
      · rw [if_neg hpr, if_neg hpr]
        exact List.count_eq_zero.mpr (hnow p.1 "arrived").1
    · by_cases hpr : p.1 = rid
      · rw [if_pos hpr, if_pos hpr, lsOf_insert_self]
        apply count_add_handler_self
        rw [alBucket_add_handler_ne _ _ _ (by decide : "left" ≠ "arrived")]
        exact List.count_eq_zero.mpr (hnow rid "left").2
      · rw [if_neg hpr, if_neg hpr]
        exact List.count_eq_zero.mpr (hnow p.1 "left").2
  · intro w s eid direction sid prev next hmap hroom hexit hsess hmoved hkeys hsub
    have hexit2 : ∃ t, alGet? prev.exit_dict direction = some t ∧
        World.get_room w t = some next := by
      unfold Room.get_exit at hexit
      cases hd : alGet? prev.exit_dict direction with
      | none =>
        rw [hd] at hexit
        have hex3 : (Option.none : Option Room) = some next := hexit
        cases hex3
      | some t =>
        rw [hd] at hexit
        exact ⟨t, rfl, hexit⟩
    obtain ⟨t, ht1, ht2⟩ := hexit2
    have hmemW : (t, next) ∈ w.rooms := alGet?_eq_some_mem ht2
    have hnextid : next.id = t := hkeys (t, next) hmemW
    have hmemWprev : (prev.id, prev) ∈ w.rooms := alGet?_eq_some_mem hroom
    have hbind : (alGet? s.entity_room_map eid).bind (World.get_room w) = some prev := by
      rw [hmap]
      exact hroom
    have he := move_valid_eq w s eid direction prev next hbind hexit
    rw [he]
    set s1 : MState := { s with
      entity_room_map := alInsert s.entity_room_map eid next.id
      trace := s.trace ++ [Eff.set_room eid next.id] } with hs1
    set s2 : MState := dispatch s1 (.room next.id) "arrived" (.arrived eid) with hs2
    set s3 : MState := dispatch s2 (.entity eid) "moved" (.moved prev.id next.id) with hs3
    set s4 : MState := dispatch s3 (.room prev.id) "left" (.left eid direction) with hs4
    have hs1rooms : s1.roomListeners = s.roomListeners := by rw [hs1]
    have hs2rooms : s2.roomListeners = s.roomListeners := by
      rw [hs2, dispatch_rooms_arrived, hs1rooms]
    have hs2sess : s2.sessionOf = s.sessionOf := by
      rw [hs2, dispatch_sess, hs1]
    have hs2el : s2.entityListeners = s.entityListeners := by
      rw [hs2, dispatch_el, hs1]
    have hb2 : alBucket (ownerLs s2 (.entity eid)) "moved" = [Handler.player_moved] := by
      rw [show ownerLs s2 (.entity eid) = lsOf s2.entityListeners eid from rfl, hs2el]
      exact hmoved
    have hd3 := dispatch_moved_player s2 eid (.moved prev.id next.id) hb2
    have hsess2 : alGet? s2.sessionOf eid = some sid := by
      rw [hs2sess]
      exact hsess
    have hA0 := (hsub (prev.id, prev) hmemWprev).1
    rw [if_pos rfl] at hA0
    have hL0 := (hsub (prev.id, prev) hmemWprev).2
    rw [if_pos rfl] at hL0
    have hTA0 : (roomBucket s.roomListeners t "arrived").count
        (Handler.display_entity_arrived sid) = if t = prev.id then 1 else 0 :=
      (hsub (t, next) hmemW).1
    have hTL0 : (roomBucket s.roomListeners t "left").count
        (Handler.display_entity_left sid) = if t = prev.id then 1 else 0 :=
      (hsub (t, next) hmemW).2
    have hA2 : (alBucket (lsOf s2.roomListeners prev.id) "arrived").count
        (Handler.display_entity_arrived sid) = 1 := by
      rw [hs2rooms]
      exact hA0
    have hL2 : (alBucket (lsOf s2.roomListeners prev.id) "left").count
        (Handler.display_entity_left sid) = 1 := by
      rw [hs2rooms]
      exact hL0
    have hTA2 : (alBucket (lsOf s2.roomListeners next.id) "arrived").count
        (Handler.display_entity_arrived sid) = if next.id = prev.id then 1 else 0 := by
      rw [hs2rooms, hnextid]
      exact hTA0
    have hTL2 : (alBucket (lsOf s2.roomListeners next.id) "left").count
        (Handler.display_entity_left sid) = if next.id = prev.id then 1 else 0 := by
      rw [hs2rooms, hnextid]
      exact hTL0
    obtain ⟨hout3, hcntA, hcntL⟩ := player_moved_apply s2.sessionOf s2.roomListeners
      eid sid prev.id next.id hsess2 hA2 hL2 hTA2 hTL2
    have h3rooms : s3.roomListeners = (applyListener s2.sessionOf s2.roomListeners
        (.entity eid) (.moved prev.id next.id) .player_moved).1 := by
      rw [hs3, hd3]
    have h3out : s3.output = s2.output ++ (applyListener s2.sessionOf s2.roomListeners
        (.entity eid) (.moved prev.id next.id) .player_moved).2 := by
      rw [hs3, hd3]
    have h4rooms : s4.roomListeners = (applyListener s2.sessionOf s2.roomListeners
        (.entity eid) (.moved prev.id next.id) .player_moved).1 := by
      rw [hs4, dispatch_rooms_left, h3rooms]
    refine ⟨rfl, ?_, ?_⟩
    · intro p hp
      simp only [roomBucket]
      rw [h4rooms]
      constructor
      · rw [hcntA p.1]
        by_cases h1 : p.1 = next.id
        · rw [if_pos h1, if_pos h1]
        · rw [if_neg h1, if_neg h1]
          by_cases h2 : p.1 = prev.id
          · rw [if_pos h2]
          · rw [if_neg h2, hs2rooms]
            have hz := (hsub p hp).1
            rw [if_neg h2] at hz
            exact hz
      · rw [hcntL p.1]
        by_cases h1 : p.1 = next.id
        · rw [if_pos h1, if_pos h1]
        · rw [if_neg h1, if_neg h1]
          by_cases h2 : p.1 = prev.id
          · rw [if_pos h2]
          · rw [if_neg h2, hs2rooms]
            have hz := (hsub p hp).2
            rw [if_neg h2] at hz
            exact hz
    · intro hne
      have hnotin4 : Handler.display_entity_left sid
          ∉ alBucket (lsOf s3.roomListeners prev.id) "left" := by
        apply List.count_eq_zero.mp
        rw [h3rooms, hcntL prev.id, if_neg (fun hc => hne hc.symm), if_pos rfl]
      have h4out : outputsFor sid s4.output = outputsFor sid s3.output := by
        rw [hs4]
        exact dispatch_out_left s3 prev.id eid direction sid hnotin4
      have hnotin2 : Handler.display_entity_arrived sid
          ∉ alBucket (lsOf s1.roomListeners next.id) "arrived" := by
        apply List.count_eq_zero.mp
        rw [hs1rooms, hnextid]
        rw [hnextid] at hne
        rw [if_neg (by intro hc; exact hne (by rw [hc]))] at hTA0
        exact hTA0
      have h2out : outputsFor sid s2.output = outputsFor sid s.output := by
        rw [hs2]
        have := dispatch_out_arrived s1 next.id eid sid hnotin2
        rw [this, hs1]
      rw [h4out, h3out, outputsFor_append, hout3, h2out]
      have hone : outputsFor sid [DisplayCall.room sid next.id]
          = [DisplayCall.room sid next.id] := by
        simp [outputsFor, sidOf]
      rw [hone]

/-- C9 counterexample: in a world whose root room has a self-loop exit
(exactly the shape of the repository's own test world), a registered player
moving through that exit receives its own "arrived" display from the
destination and its own "left" display from the origin — the same room —
because on_register subscribed it there and player_moved re-subscribes it
before the origin's "left" dispatch. -/
theorem C9_counterexample :
    (Entity.move selfWorld testReg "e" "north").2 = .ok (true, Option.none) ∧
    DisplayCall.entity_arrived 7 "root" "e"
      ∈ (Entity.move selfWorld testReg "e" "north").1.output ∧
    DisplayCall.entity_left 7 "root" "e" "north"
      ∈ (Entity.move selfWorld testReg "e" "north").1.output :=
  ⟨by decide, by decide, by decide⟩

/-- C9 witness: concrete registration in the test world, then a concrete
root-to-lab move. -/
theorem C9_witness :
    ((player_on_register testState "e" 7).2 = .ok () ∧
      subscribedExactly testWorld (player_on_register testState "e" 7).1.roomListeners
        7 "root") ∧
    ((Entity.move testWorld testReg "e" "north").2 = .ok (true, Option.none) ∧
      subscribedExactly testWorld
        (Entity.move testWorld testReg "e" "north").1.roomListeners 7 testLab.id ∧
      (testLab.id ≠ testRoot.id →
        outputsFor 7 (Entity.move testWorld testReg "e" "north").1.output
          = outputsFor 7 testReg.output ++ [DisplayCall.room 7 testLab.id])) :=
  ⟨C9_amended.1 testWorld testState "e" "root" 7 (by decide)
      (subscribedNowhere_nil 7),
   C9_amended.2 testWorld testReg "e" "north" 7 testRoot testLab (by decide) (by decide)
      (by decide) (by decide) (by decide) (by decide) (by decide)⟩

end EasyMud
